import Mathlib

/-!
Verification of the Coexistence-for-Dis_evo repository.

The repository consists of a fastq-renaming utility
(`Barcode_Counter/Rename.py`) and two near-duplicate pandas analysis
scripts (`DataAnalysis/Strain_competition.py` and the checkpoint copy
`Analyze_12well_plates-checkpoint.py`).  This file gives a shallow
embedding of their data model and operations and proves or refutes the
stated properties about them.

Conventions of the embedding:
* read counts and frequencies are rationals;
* filesystem effects of `Rename.py` are represented by an explicit
  state (`RenState`) holding the set of existing file paths, the list
  of performed operations and the printed lines;
* printed output of the analysis pipeline is returned as a list of
  strings alongside the produced records;
* regular-expression matches of the Python sources are implemented as
  deterministic character-list parsers (the patterns involved never
  backtrack, which makes the translation exact).
-/

/-! ## Character classes used by the regular expressions -/

/-- The character class of the regex fragment given by an uppercase
letter, as in the Python class from A to Z (codes 65 to 90). -/
def isUpperAZ (c : Char) : Bool := decide (65 ≤ c.toNat ∧ c.toNat ≤ 90)

/-- The ASCII digit class (codes 48 to 57), as used by the digit class
of the Python regexes. -/
def isDigit09 (c : Char) : Bool := decide (48 ≤ c.toNat ∧ c.toNat ≤ 57)

/-- The well-row letter class from A to H (codes 65 to 72) of the column
name regex in the analysis scripts. -/
def isLetterAH (c : Char) : Bool := decide (65 ≤ c.toNat ∧ c.toNat ≤ 72)

theorem isDigit09_not_isUpperAZ {c : Char} (h : isDigit09 c = true) :
    isUpperAZ c = false := by
  simp only [isDigit09, decide_eq_true_eq] at h
  simp only [isUpperAZ, decide_eq_false_iff_not]
  omega

/-- Numeric value of a digit string, ignoring underscores (Python allows
single underscores between digits in integer literals). -/
def digitsVal (cs : List Char) : Nat :=
  cs.foldl (fun a c => if c = '_' then a else a * 10 + (c.toNat - 48)) 0

/-- Validity of the tail of a Python integer literal: digits, where a
single underscore may separate two digits. -/
def pyDigitsTail : List Char → Bool
  | [] => true
  | '_' :: c :: rest => isDigit09 c && pyDigitsTail rest
  | c :: rest => isDigit09 c && pyDigitsTail rest

/-- Validity of the digit part of a Python integer literal: nonempty,
starts with a digit, single underscores only between digits. -/
def pyDigitsOk : List Char → Bool
  | [] => false
  | c :: rest => isDigit09 c && pyDigitsTail rest

/-- Embedding of Python `str.strip()`: surrounding whitespace is
removed from both ends. -/
def pyStrip (s : String) : String :=
  String.mk (((s.toList.dropWhile Char.isWhitespace).reverse.dropWhile
    Char.isWhitespace).reverse)

/-- Splitting of a character list at every occurrence of a separator
character, keeping empty groups, the behaviour of Python
`str.split(sep)` with a one-character separator. -/
def splitChar (ch : Char) : List Char → List (List Char)
  | [] => [[]]
  | c :: rest =>
    if c = ch then [] :: splitChar ch rest
    else match splitChar ch rest with
      | [] => [[c]]
      | g :: gs => (c :: g) :: gs

/-- Python `str.split(sep)` for a one-character separator. -/
def pySplit (ch : Char) (s : String) : List String :=
  (splitChar ch s.toList).map String.mk

/-- Python `str.replace(old, new)` for a one-character `old` and an
empty `new`: removal of every occurrence of the character. -/
def removeChar (ch : Char) (s : String) : String :=
  String.mk (s.toList.filter (fun c => c != ch))

/-- Embedding of the Python builtin `int` applied to a string: strips
surrounding whitespace, accepts an optional sign followed by digits
(with optional single underscores between digits); returns `none` when
the string is not a valid integer literal, mirroring the `ValueError`
caught by the scripts. -/
def pyInt (s : String) : Option Int :=
  match (pyStrip s).toList with
  | '+' :: rest => if pyDigitsOk rest then some (Int.ofNat (digitsVal rest)) else none
  | '-' :: rest => if pyDigitsOk rest then some (-Int.ofNat (digitsVal rest)) else none
  | rest => if pyDigitsOk rest then some (Int.ofNat (digitsVal rest)) else none

/-! ## Rename.py: filename pattern and new-name computation -/

/-- Consume an exact literal from the front of a character list, the way
a literal regex fragment matches; `none` when the input does not start
with the literal. -/
def dropLit : List Char → List Char → Option (List Char)
  | [], cs => some cs
  | _ :: _, [] => none
  | l :: ls, c :: cs => if c = l then dropLit ls cs else none

/-- The literal head of the filename pattern in `rename_fastq_files`,
up to the read-number digit. -/
def renameLitHead : List Char := ("000000000-GRN6V_l01_n0").toList

/-- Embedding of the anchored-prefix match of the filename regex of
`rename_fastq_files`, staged over the fragments of the pattern:
read digit 1 or 2, then an underscore, the project name (nonempty, no
underscore), an underscore, a nonempty digit run, two underscores, the
sample name (nonempty, no dot), and finally the literal fastq.gz
extension; anything may follow, since Python `re.match` only anchors at
the start.  None of the quantified fragments can backtrack, so the
greedy character-level parse of the stages below is exactly the regex.
This first stage is the sample fragment followed by the extension
literal. -/
def matchSampleExt (r : Char) (proj rest4 : List Char) : Option (Char × String × String) :=
  if rest4.takeWhile (fun c => c != '.') = [] then none else
  if (".fastq.gz").toList.isPrefixOf (rest4.dropWhile (fun c => c != '.'))
  then some (r, String.mk proj, String.mk (rest4.takeWhile (fun c => c != '.')))
  else none

/-- The digit-run fragment of the pattern followed by the double
underscore and the sample fragment. -/
def matchDigitsPart (r : Char) (proj rest3 : List Char) : Option (Char × String × String) :=
  if rest3.takeWhile isDigit09 = [] then none else
  match dropLit (['_', '_']) (rest3.dropWhile isDigit09) with
  | none => none
  | some rest4 => matchSampleExt r proj rest4

/-- The project-name fragment of the pattern followed by the separator
underscore and the rest. -/
def matchProjPart (r : Char) (rest2 : List Char) : Option (Char × String × String) :=
  if rest2.takeWhile (fun c => c != '_') = [] then none else
  match dropLit (['_']) (rest2.dropWhile (fun c => c != '_')) with
  | none => none
  | some rest3 => matchDigitsPart r (rest2.takeWhile (fun c => c != '_')) rest3

/-- The tail of the pattern after the captured read digit: the
underscore, the project fragment, and the rest. -/
def matchRenameTail (r : Char) (rest1 : List Char) : Option (Char × String × String) :=
  match dropLit (['_']) rest1 with
  | none => none
  | some rest2 => matchProjPart r rest2

/-- The full filename pattern: the literal head, then the captured
read digit (the regex class of 1 and 2), then the tail pattern. -/
def matchRenamePat (name : String) : Option (Char × String × String) :=
  match dropLit renameLitHead name.toList with
  | none => none
  | some [] => none
  | some (r :: rest1) =>
    if r = '1' ∨ r = '2' then matchRenameTail r rest1 else none

/-- Embedding of `str.zfill(2)` on a digit string: left-pad with zeros
to width two. -/
def zfill2 (s : String) : String :=
  if s.length < 2 then String.mk (List.replicate (2 - s.length) '0') ++ s else s

/-- Embedding of the well-padding regex of `rename_fastq_files`: an
anchored-prefix match of one or more uppercase letters followed by one
or more digits.  Returns the two captured groups; the remainder of the
string is not captured, exactly as in the Python code. -/
def upperDigitSplit (cs : List Char) : Option (List Char × List Char) :=
  let ls := cs.takeWhile isUpperAZ
  if ls = [] then none else
  let ds := (cs.dropWhile isUpperAZ).takeWhile isDigit09
  if ds = [] then none else some (ls, ds)

/-- Embedding of the sample-name padding in `rename_fastq_files`: when
the well-padding regex matches a prefix of the sample name, the new
sample name is the letter group followed by the zero-padded digit
group (any remaining characters are dropped); otherwise the sample
name is unchanged. -/
def padSample (sample : String) : String :=
  match upperDigitSplit sample.toList with
  | some (ls, ds) => String.mk ls ++ zfill2 (String.mk ds)
  | none => sample

/-- New-name computation of `rename_fastq_files` for a single filename:
`none` when the filename does not match the pattern, otherwise the
renamed form project, padded sample and read number. -/
def computeNewName (name : String) : Option String :=
  match matchRenamePat name with
  | none => none
  | some (readNum, proj, samp) =>
    some (proj ++ "_" ++ padSample samp ++ "_R" ++ String.singleton readNum ++ ".fastq.gz")

/-! ## Rename.py: filesystem action phase -/

/-- A filesystem operation performed by `rename_fastq_files`. -/
inductive FsOp where
  | rename : String → String → FsOp
  | copy : String → String → FsOp
  | symlink : String → String → FsOp
deriving DecidableEq

/-- State threaded through the action loop of `rename_fastq_files`:
the existing file paths (the `exists` and `is_symlink` checks of the
script test membership here), the operations performed so far, the
printed lines, and the success and error counters of the script. -/
structure RenState where
  files : List String
  ops : List FsOp
  prints : List String
  successCount : Nat
  errorCount : Nat
deriving DecidableEq

/-- The dry-run line printed for one planned file. -/
def wouldLine (useSymlinks outputDirGiven : Bool) (oldName newName : String) : String :=
  "Would " ++ (if useSymlinks && outputDirGiven then ("symlink") else ("rename/copy")) ++
    ": " ++ oldName ++ " -> " ++ newName

/-- One iteration of the action loop of `rename_fastq_files` on a
planned (old, new) pair: in dry-run mode only a would-line is printed;
otherwise an existing destination is skipped with a warning and an
error count increment, and else the rename, copy or symlink is
performed according to the mode. -/
def processOne (dryRun outputDirGiven useSymlinks : Bool) (st : RenState)
    (oldName newName : String) : RenState :=
  if dryRun then
    { st with prints := st.prints ++ [wouldLine useSymlinks outputDirGiven oldName newName] }
  else if newName ∈ st.files then
    { st with
      prints := st.prints ++ ["Warning: " ++ newName ++ " already exists, skipping " ++ oldName]
      errorCount := st.errorCount + 1 }
  else if outputDirGiven then
    if useSymlinks then
      { st with
        files := st.files ++ [newName]
        ops := st.ops ++ [FsOp.symlink oldName newName]
        prints := st.prints ++ ["Symlinked: " ++ oldName ++ " -> " ++ newName]
        successCount := st.successCount + 1 }
    else
      { st with
        files := st.files ++ [newName]
        ops := st.ops ++ [FsOp.copy oldName newName]
        prints := st.prints ++ ["Copied: " ++ oldName ++ " -> " ++ newName]
        successCount := st.successCount + 1 }
  else
    { st with
      files := st.files.erase oldName ++ [newName]
      ops := st.ops ++ [FsOp.rename oldName newName]
      prints := st.prints ++ ["Renamed: " ++ oldName ++ " -> " ++ newName]
      successCount := st.successCount + 1 }

/-- The action loop of `rename_fastq_files` over the planned pairs. -/
def runRenameLoop (dryRun outputDirGiven useSymlinks : Bool)
    (plan : List (String × String)) (fs : List String) : RenState :=
  plan.foldl (fun st p => processOne dryRun outputDirGiven useSymlinks st p.1 p.2)
    ⟨fs, [], [], 0, 0⟩

/-- The planning phase of `rename_fastq_files`: the files of the
directory matching the fastq.gz glob are matched against the pattern
and paired with their computed new name (the sort applied by the
script for display purposes does not change the set of pairs and is
not modeled). -/
def renamePlan (dirFiles : List String) : List (String × String) :=
  (dirFiles.filter (fun n => (".fastq.gz").toList.isSuffixOf n.toList)).filterMap
    (fun n => (computeNewName n).map (fun nn => (n, nn)))

/-- Embedding of `rename_fastq_files`: when the directory does not
exist an error line is printed and nothing else happens; otherwise the
plan is computed and the action loop runs.  Returns the resulting file
set, the performed operations, and the per-file printed lines (the
informational header and footer lines of the script are not modeled). -/
def renameFastqFiles (dirExists : Bool) (dirName : String)
    (dryRun outputDirGiven useSymlinks : Bool) (dirFiles : List String) :
    List String × List FsOp × List String :=
  if dirExists then
    let st := runRenameLoop dryRun outputDirGiven useSymlinks (renamePlan dirFiles) dirFiles
    (st.files, st.ops, st.prints)
  else
    (dirFiles, [], ["Error: Directory " ++ dirName ++ " does not exist"])

/-! ## Analysis scripts: plate map loader -/

/-- A plate-map entry as built by `_load_plate_map` of
`PlateMapStrainAnalyzer` (all fields are the strings stored by the
Python dict). -/
structure PlateEntry where
  type : String
  pair : String
  condition : String
  replicate : String
  timepoint : String
deriving DecidableEq

/-- A row of the plate-map CSV: the PLATE value, the WELL value, and
the third-column condition string (PLATE is kept as the string it is
interpolated as). -/
structure PlateRow where
  plate : String
  well : String
  condition : String
deriving DecidableEq

/-- Embedding of the per-row branching of `_load_plate_map`: the
condition string is stripped and split on underscores; SALT and GAL
rows are special-cased, rows of five or more parts starting with C or
P become pair entries, and every other shape yields no entry. -/
def parseConditionEntry (conditionStr : String) : Option PlateEntry :=
  let parts := pySplit '_' (pyStrip conditionStr)
  if 1 < parts.length ∧ (parts.getD 1 ("") = "SALT" ∨ parts.getD 1 ("") = "GAL") then
    some { type := "pair",
           pair := if 2 < parts.length then removeChar 'P' (parts.getD 2 ("")) else "Unknown",
           condition := parts.getD 1 (""),
           replicate := if 3 < parts.length then parts.getD 3 ("") else "1",
           timepoint := "1" }
  else if 5 ≤ parts.length then
    if parts.getD 0 ("") = "C" then
      some { type := "pair", pair := parts.getD 1 (""), condition := parts.getD 2 (""),
             replicate := if 3 < parts.length then parts.getD 3 ("") else "1",
             timepoint := if 4 < parts.length then parts.getD 4 ("") else "1" }
    else if parts.getD 0 ("") = "P" then
      some { type := "pair", pair := parts.getD 1 (""), condition := parts.getD 2 (""),
             replicate := parts.getD 3 (""),
             timepoint := if 4 < parts.length then parts.getD 4 ("") else "1" }
    else none
  else none

/-- One iteration of the row loop of `_load_plate_map`: a row whose
condition string matches one of the expected shapes is inserted under
its plate/well key (in front, so that first-match lookup sees the most
recent insertion, as dict assignment does); any other row contributes
nothing, with no message printed. -/
def plateStep (m : List (String × PlateEntry)) (row : PlateRow) :
    List (String × PlateEntry) :=
  match parseConditionEntry row.condition with
  | some e => ("P" ++ row.plate ++ "_" ++ row.well, e) :: m
  | none => m

/-- Embedding of `_load_plate_map`: the Python dict is represented as
an association list where the most recently inserted binding for a key
comes first, so that first-match lookup coincides with dict lookup. -/
def loadPlateMap (rows : List PlateRow) : List (String × PlateEntry) :=
  rows.foldl plateStep []

/-- First-match association lookup, the dict access of the scripts. -/
def lookupKey : List (String × PlateEntry) → String → Option PlateEntry
  | [], _ => none
  | kv :: rest, key => if key = kv.1 then some kv.2 else lookupKey rest key

/-! ## Analysis scripts: data joiner (process_all_data) -/

/-- Embedding of `_parse_column_name`: the BCID column yields nothing,
otherwise an anchored-prefix match of the CoexP pattern extracts the
plate number and the well (a letter from A to H followed by digits).
The digit runs cannot backtrack, so greedy parsing is the regex. -/
def parseColumnName (colName : String) : Option (Nat × String) :=
  if colName = "BCID" then none
  else match dropLit (("CoexP").toList) colName.toList with
  | none => none
  | some rest =>
    let ds := rest.takeWhile isDigit09
    if ds = [] then none else
    match rest.dropWhile isDigit09 with
    | '_' :: c :: rest2 =>
      if isLetterAH c then
        let ws := rest2.takeWhile isDigit09
        if ws = [] then none else some (digitsVal ds, String.mk (c :: ws))
      else none
    | _ => none

/-- The plate-map key built by the scripts from a parsed column. -/
def mkKey (pw : Nat × String) : String := "P" ++ toString pw.1 ++ "_" ++ pw.2

/-- A flat record emitted by `process_all_data`. -/
structure Record where
  barcode : String
  frequency : ℚ
  pair : String
  condition : String
  timepoint : Int
  replicate : String
deriving DecidableEq

/-- A sample column of the barcode-count table: its name and its counts
aligned with the barcode column. -/
structure Column where
  name : String
  counts : List ℚ
deriving DecidableEq

/-- The barcode-count table: the first (barcode) column and the sample
columns after it. -/
structure BarcodeTable where
  barcodes : List String
  columns : List Column
deriving DecidableEq

/-- Processing of one sample column by `process_all_data`: an
unparseable column name is skipped silently, a parsed column absent
from the plate map is skipped with a printed warning, a non-pair entry
is skipped silently, and otherwise the rows with positive counts
become records, each row being dropped when the timepoint string of
the plate-map entry does not parse as an integer.  Returns the records
and the printed lines. -/
def processColumn (pmap : List (String × PlateEntry)) (barcodes : List String)
    (c : Column) : List Record × List String :=
  match parseColumnName c.name with
  | none => ([], [])
  | some pw =>
    match lookupKey pmap (mkKey pw) with
    | none => ([], ["Warning: " ++ mkKey pw ++ " not found in plate map"])
    | some md =>
      if md.type = "pair" then
        (((barcodes.zip c.counts).filter (fun bc => decide (0 < bc.2))).filterMap (fun bc =>
          (pyInt md.timepoint).map (fun tp =>
            { barcode := bc.1, frequency := bc.2, pair := md.pair,
              condition := md.condition, timepoint := tp, replicate := md.replicate })), [])
      else ([], [])

/-- Concatenation of a list of lists, the sequential appending done by
the column loop of `process_all_data`. -/
def catLists {α : Type} : List (List α) → List α
  | [] => []
  | l :: ls => l ++ catLists ls

/-- Embedding of `process_all_data`: every sample column is processed
in order; the records and the printed lines are accumulated. -/
def processAllData (t : BarcodeTable) (pmap : List (String × PlateEntry)) :
    List Record × List String :=
  (catLists (t.columns.map (fun c => (processColumn pmap t.barcodes c).1)),
   catLists (t.columns.map (fun c => (processColumn pmap t.barcodes c).2)))

/-! ## Analysis scripts: two-strain normalization (create_pair_plot) -/

/-- A row of the grouped frame of `create_pair_plot` (one row per
timepoint, replicate and barcode after the groupby-sum). -/
structure GRow where
  timepoint : Int
  replicate : String
  barcode : String
  frequency : ℚ
deriving DecidableEq

/-- The summed frequency of one barcode inside one
(timepoint, replicate) group, as computed by the sums over the masked
frame in `create_pair_plot`. -/
def groupStrainSum (rows : List GRow) (tp : Int) (rep : String) (b : String) : ℚ :=
  ((rows.filter (fun r => decide (r.timepoint = tp ∧ r.replicate = rep ∧ r.barcode = b))).map
    (fun r => r.frequency)).sum

/-- The effect of the normalization loop of `create_pair_plot` on one
grouped row.  The groups over distinct (timepoint, replicate) keys are
disjoint and the strain sums of a group are read before any value of
that group is assigned, so the in-place pandas update is exactly this
per-row function of the original frame.  The assignment to the second
expected strain is performed after the one to the first, so when the
two strain names coincide the second assignment wins. -/
def normalizeRow (e1 e2 : String) (rows : List GRow) (r : GRow) : GRow :=
  let s1 := groupStrainSum rows r.timepoint r.replicate e1
  let s2 := groupStrainSum rows r.timepoint r.replicate e2
  if 0 < s1 + s2 then
    if r.barcode = e2 then { r with frequency := s2 / (s1 + s2) }
    else if r.barcode = e1 then { r with frequency := s1 / (s1 + s2) }
    else { r with frequency := 0 }
  else r

/-- The whole normalization step of `create_pair_plot` on the grouped
frame of one condition. -/
def normalizeTwoStrain (e1 e2 : String) (rows : List GRow) : List GRow :=
  rows.map (normalizeRow e1 e2 rows)

/-- The groupby-sum of `create_pair_plot`: one grouped row per distinct
(timepoint, replicate, barcode) key with the summed frequency (the
sorting of group keys done by pandas is irrelevant to the properties
proved here and is not modeled). -/
def groupRecords (rs : List Record) : List GRow :=
  ((rs.map (fun r => (r.timepoint, r.replicate, r.barcode))).dedup).map (fun k =>
    { timepoint := k.1, replicate := k.2.1, barcode := k.2.2,
      frequency := ((rs.filter (fun r =>
        decide (r.timepoint = k.1 ∧ r.replicate = k.2.1 ∧ r.barcode = k.2.2))).map
        (fun r => r.frequency)).sum })

/-- The strain-pair table defined in the constructor of
`PlateMapStrainAnalyzer`. -/
def strain_pairs : List (String × String × String) :=
  [("Pair1", "P3_B3", "P3_H1"), ("Pair2", "P3_C1", "P3_G7"),
   ("Pair3", "P3_B3", "P3_G7"), ("Pair4", "P2_B1", "P3_H5"),
   ("Pair5", "P2_B1", "P4_G6"), ("Pair6", "P3_C2", "P4_G6"),
   ("Pair7", "P3_C2", "P3_H5"), ("Pair8", "P4_F2", "P3_D9"),
   ("Pair9", "P4_F2", "P3_A7"), ("Pair10", "P4_F2", "P5_F8"),
   ("Pair11", "P4_C11", "P3_D9"), ("Pair12", "P4_C11", "P5_F8"),
   ("Pair13", "P4_C11", "P3_A7")]

/-- Lookup of a pair key in the strain-pair table. -/
def lookupPairStrains : List (String × String × String) → String → Option (String × String)
  | [], _ => none
  | p :: rest, key => if key = p.1 then some (p.2.1, p.2.2) else lookupPairStrains rest key

/-- The data computed by `create_pair_plot` before rendering: for the
requested pair, per condition, the grouped rows after the two-strain
normalization.  `none` models the early returns for an empty pair
selection or an unknown pair. -/
def createPairPlotData (records : List Record) (pairNumber : String) :
    Option (List (String × List GRow)) :=
  let pairData := records.filter (fun r => decide (r.pair = pairNumber))
  if pairData = [] then none
  else match lookupPairStrains strain_pairs ("Pair" ++ pairNumber) with
    | none => none
    | some s =>
      let e1 := removeChar '_' s.1
      let e2 := removeChar '_' s.2
      let conditions := (pairData.map (fun r => r.condition)).dedup
      some (conditions.map (fun cond =>
        (cond, normalizeTwoStrain e1 e2
          (groupRecords (pairData.filter (fun r => decide (r.condition = cond)))))))

/-! ## Analysis scripts: analyzer state and its operations -/

/-- The state of a `PlateMapStrainAnalyzer` instance after
construction.  Each method below returns the successor state together
with its result, making the (absent) mutation of the state explicit. -/
structure AnalyzerState where
  barcode_data : BarcodeTable
  plate_map : List (String × PlateEntry)
  strainPairs : List (String × String × String)
deriving DecidableEq

/-- The constructor of `PlateMapStrainAnalyzer`: loads the barcode
table and builds the plate map once. -/
def mkAnalyzer (t : BarcodeTable) (pm : List PlateRow) : AnalyzerState :=
  { barcode_data := t, plate_map := loadPlateMap pm, strainPairs := strain_pairs }

/-- Method `process_all_data` as a state transformer. -/
def processAllDataOp (st : AnalyzerState) :
    AnalyzerState × (List Record × List String) :=
  (st, processAllData st.barcode_data st.plate_map)

/-- Method `create_pair_plot` as a state transformer (its result is the
plotted data). -/
def createPairPlotOp (st : AnalyzerState) (pairNumber : String) :
    AnalyzerState × Option (List (String × List GRow)) :=
  (st, createPairPlotData (processAllData st.barcode_data st.plate_map).1 pairNumber)

/-- Method `export_processed_data` as a state transformer (its result
is the exported file name and rows). -/
def exportProcessedDataOp (st : AnalyzerState) (outputFile : String) :
    AnalyzerState × (String × List Record) :=
  (st, (outputFile, (processAllData st.barcode_data st.plate_map).1))

/-- Method `get_pair_summary` as a state transformer (its result is the
selected pair data). -/
def getPairSummaryOp (st : AnalyzerState) (pairNumber : String) :
    AnalyzerState × List Record :=
  (st, (processAllData st.barcode_data st.plate_map).1.filter
    (fun r => decide (r.pair = pairNumber)))

/-- Modelled from the spec (for the amended C5): the warning a sample
column is expected to produce, namely one warning exactly when the
column name parses but its plate/well key is absent from the plate
map. -/
def columnWarning (pmap : List (String × PlateEntry)) (c : Column) : Option String :=
  match parseColumnName c.name with
  | none => none
  | some pw =>
    match lookupKey pmap (mkKey pw) with
    | none => some ("Warning: " ++ mkKey pw ++ " not found in plate map")
    | some _ => none

/-- Modelled from the spec (for the amended C5): the expected printed
warnings of the join, namely exactly one warning per parsed sample
column whose plate/well key is absent from the plate map. -/
def specExpectedWarnings (t : BarcodeTable) (pmap : List (String × PlateEntry)) :
    List String :=
  t.columns.filterMap (columnWarning pmap)

/-! ## Theorems -/

/-- C7: the plate map is built exactly once, in the constructor, and
every subsequent operation (process_all_data, create_pair_plot,
export_processed_data, get_pair_summary) leaves it unchanged. -/
theorem c7_plate_map_immutable (t : BarcodeTable) (pm : List PlateRow)
    (st : AnalyzerState) (pairNumber outputFile : String) :
    (mkAnalyzer t pm).plate_map = loadPlateMap pm ∧
    (processAllDataOp st).1.plate_map = st.plate_map ∧
    (createPairPlotOp st pairNumber).1.plate_map = st.plate_map ∧
    (exportProcessedDataOp st outputFile).1.plate_map = st.plate_map ∧
    (getPairSummaryOp st pairNumber).1.plate_map = st.plate_map :=
  ⟨rfl, rfl, rfl, rfl, rfl⟩

/-- C2: when the two expected strain frequencies of a
(timepoint, replicate) group sum to zero, the normalization of
`create_pair_plot` leaves every row of that group unchanged, and the
unchanged row still appears in the normalized frame. -/
theorem c2_zero_sum_group_unchanged (e1 e2 : String) (rows : List GRow)
    (tp : Int) (rep : String)
    (hz : groupStrainSum rows tp rep e1 + groupStrainSum rows tp rep e2 = 0) :
    ∀ r ∈ rows, r.timepoint = tp → r.replicate = rep →
      normalizeRow e1 e2 rows r = r ∧ r ∈ normalizeTwoStrain e1 e2 rows := by
  intro r hr htp hrep
  have hfix : normalizeRow e1 e2 rows r = r := by
    simp only [normalizeRow]
    rw [htp, hrep, hz]
    simp
  refine ⟨hfix, ?_⟩
  rw [normalizeTwoStrain]
  exact hfix ▸ List.mem_map_of_mem (normalizeRow e1 e2 rows) hr

/-- Witness data for the zero-sum group theorem: a group containing
neither expected strain. -/
def c2rows : List GRow := [{ timepoint := 1, replicate := "1", barcode := "XX", frequency := 5 }]

theorem c2_witness :
    (groupStrainSum c2rows 1 "1" "A" + groupStrainSum c2rows 1 "1" "B" = 0) ∧
    (∀ r ∈ c2rows, r.timepoint = 1 → r.replicate = "1" →
      normalizeRow "A" "B" c2rows r = r ∧ r ∈ normalizeTwoStrain "A" "B" c2rows) :=
  ⟨by simp [groupStrainSum, c2rows],
   c2_zero_sum_group_unchanged "A" "B" c2rows 1 "1" (by simp [groupStrainSum, c2rows])⟩

/-- C9: when the computed destination of a planned file already exists,
the action loop of `rename_fastq_files` performs no operation for that
file, prints a warning, increments the error count, and leaves the
file set (in particular the pre-existing destination) unchanged. -/
theorem c9_no_overwrite (odg sym : Bool) (st : RenState) (oldName newName : String)
    (h : newName ∈ st.files) :
    processOne false odg sym st oldName newName =
      { st with
        prints := st.prints ++
          ["Warning: " ++ newName ++ " already exists, skipping " ++ oldName]
        errorCount := st.errorCount + 1 } := by
  simp [processOne, h]

/-- Witness state for the no-overwrite theorem. -/
def w9st : RenState :=
  { files := ["CoexP1_A01_R1.fastq.gz"], ops := [], prints := [],
    successCount := 0, errorCount := 0 }

theorem c9_witness :
    ("CoexP1_A01_R1.fastq.gz" ∈ w9st.files) ∧
    processOne false true false w9st ("old1.fastq.gz") ("CoexP1_A01_R1.fastq.gz") =
      { w9st with
        prints := w9st.prints ++
          ["Warning: " ++ "CoexP1_A01_R1.fastq.gz" ++ " already exists, skipping " ++
            "old1.fastq.gz"]
        errorCount := w9st.errorCount + 1 } :=
  ⟨by decide,
   c9_no_overwrite true false w9st ("old1.fastq.gz") ("CoexP1_A01_R1.fastq.gz") (by decide)⟩

/-- The action loop in dry-run mode only accumulates would-lines. -/
theorem foldl_dry (odg sym : Bool) :
    ∀ (plan : List (String × String)) (st : RenState),
    plan.foldl (fun s p => processOne true odg sym s p.1 p.2) st =
      { st with prints := st.prints ++ plan.map (fun p => wouldLine sym odg p.1 p.2) } := by
  intro plan
  induction plan with
  | nil => intro st; simp
  | cons p rest ih =>
    intro st
    simp only [List.foldl_cons, List.map_cons]
    rw [ih]
    simp [processOne]

/-- C8: in dry-run mode the action loop performs no rename, copy or
symlink, leaves the files unchanged, and prints exactly one would-line
per matched file; and when the input directory does not exist,
`rename_fastq_files` only prints an error and touches nothing. -/
theorem c8_dry_run_and_missing_dir (dirName : String) (dirFiles fs : List String)
    (plan : List (String × String)) (dryRun odg sym : Bool) :
    runRenameLoop true odg sym plan fs =
      { files := fs, ops := [], successCount := 0, errorCount := 0,
        prints := plan.map (fun p => wouldLine sym odg p.1 p.2) } ∧
    (renameFastqFiles true dirName true odg sym dirFiles).1 = dirFiles ∧
    (renameFastqFiles true dirName true odg sym dirFiles).2.1 = [] ∧
    (renameFastqFiles true dirName true odg sym dirFiles).2.2 =
      (renamePlan dirFiles).map (fun p => wouldLine sym odg p.1 p.2) ∧
    renameFastqFiles false dirName dryRun odg sym dirFiles =
      (dirFiles, [], ["Error: Directory " ++ dirName ++ " does not exist"]) := by
  have hloop : ∀ (pl : List (String × String)) (f : List String),
      runRenameLoop true odg sym pl f =
        { files := f, ops := [], successCount := 0, errorCount := 0,
          prints := pl.map (fun p => wouldLine sym odg p.1 p.2) } := by
    intro pl f
    rw [runRenameLoop, foldl_dry]
    simp
  refine ⟨hloop plan fs, ?_, ?_, ?_, rfl⟩ <;>
    simp [renameFastqFiles, hloop]

/-- Every binding of the fold of `plateStep` over the rows comes from
the initial accumulator or from some row whose condition string
matches an expected shape. -/
theorem foldl_plateStep_mem (rows : List PlateRow) :
    ∀ (acc : List (String × PlateEntry)) (k : String) (e : PlateEntry),
      (k, e) ∈ rows.foldl plateStep acc →
      (k, e) ∈ acc ∨ ∃ row ∈ rows, k = "P" ++ row.plate ++ "_" ++ row.well ∧
        parseConditionEntry row.condition = some e := by
  induction rows with
  | nil =>
    intro acc k e h
    exact Or.inl h
  | cons row rest ih =>
    intro acc k e h
    rw [List.foldl_cons] at h
    rcases ih (plateStep acc row) k e h with hacc | ⟨row2, hrow2, hk, hp⟩
    · rcases hq : parseConditionEntry row.condition with _ | e2
      · rw [plateStep, hq] at hacc
        exact Or.inl hacc
      · rw [plateStep, hq] at hacc
        rcases List.mem_cons.mp hacc with heq | hacc2
        · have h1 : k = "P" ++ row.plate ++ "_" ++ row.well := congrArg Prod.fst heq
          have h2 : e = e2 := congrArg Prod.snd heq
          exact Or.inr ⟨row, List.mem_cons_self row rest, h1, h2 ▸ hq⟩
        · exact Or.inl hacc2
    · exact Or.inr ⟨row2, List.mem_cons_of_mem row hrow2, hk, hp⟩

/-- C6: every entry of the mapping built by `_load_plate_map` is keyed
by the plate/well string of some input row, and its value is derived
from that row's condition string by the underscore-splitting branch
logic. -/
theorem c6_plate_map_shape (rows : List PlateRow) (k : String) (e : PlateEntry)
    (h : (k, e) ∈ loadPlateMap rows) :
    ∃ row ∈ rows, k = "P" ++ row.plate ++ "_" ++ row.well ∧
      parseConditionEntry row.condition = some e := by
  rcases foldl_plateStep_mem rows [] k e h with h0 | h1
  · cases h0
  · exact h1

/-- Witness data for the plate-map shape theorem. -/
def c6rows : List PlateRow := [{ plate := "3", well := "B3", condition := "P_1_NaCl_1_3" }]

/-- The plate-map entry built from the witness row. -/
def c6entry : PlateEntry :=
  { type := "pair", pair := "1", condition := "NaCl", replicate := "1", timepoint := "3" }

theorem c6_witness :
    (("P3_B3", c6entry) ∈ loadPlateMap c6rows) ∧
    ∃ row ∈ c6rows, "P3_B3" = "P" ++ row.plate ++ "_" ++ row.well ∧
      parseConditionEntry row.condition = some c6entry :=
  ⟨by decide, c6_plate_map_shape c6rows "P3_B3" c6entry (by decide)⟩

/-- `filterMap` of a constantly-none function produces nothing. -/
theorem filterMap_none {α β : Type} (l : List α) :
    l.filterMap (fun _ => (none : Option β)) = [] := by
  induction l with
  | nil => rfl
  | cons a l ih => simp [List.filterMap_cons, ih]

/-- C10: a sample column that parses, is present in the plate map and
has a pair-type entry, but whose timepoint string does not parse as an
integer, produces no record and no printed warning: every row of the
sample is silently dropped. -/
theorem c10_unparseable_timepoint_dropped (pmap : List (String × PlateEntry))
    (barcodes : List String) (c : Column) (pw : Nat × String) (md : PlateEntry)
    (h1 : parseColumnName c.name = some pw)
    (h2 : lookupKey pmap (mkKey pw) = some md)
    (h3 : md.type = "pair")
    (h4 : pyInt md.timepoint = none) :
    processColumn pmap barcodes c = ([], []) := by
  simp [processColumn, h1, h2, h3, h4, filterMap_none]

/-- Witness plate map for the unparseable-timepoint theorem: the
timepoint string T0 is not an integer literal. -/
def w10entry : PlateEntry :=
  { type := "pair", pair := "1", condition := "NaCl", replicate := "1", timepoint := "T0" }

/-- Witness plate map holding the entry with the bad timepoint. -/
def w10pmap : List (String × PlateEntry) := [("P1_A1", w10entry)]

/-- Witness sample column with a positive count. -/
def w10col : Column := { name := "CoexP1_A1", counts := [5] }

theorem c10_witness :
    (parseColumnName ("CoexP1_A1") = some (1, "A1") ∧
     lookupKey w10pmap (mkKey (1, "A1")) = some w10entry ∧
     w10entry.type = "pair" ∧
     pyInt w10entry.timepoint = none) ∧
    processColumn w10pmap ["P3B3"] w10col = ([], []) :=
  ⟨⟨by decide, by decide, by decide, by decide⟩,
   c10_unparseable_timepoint_dropped w10pmap ["P3B3"] w10col (1, "A1") w10entry
     (by decide) (by decide) (by decide) (by decide)⟩

/-- C5 counterexample: a barcode-table column whose name does not parse
is skipped, but produces no printed warning at all, contradicting the
claim that every skipped unparseable column prints a warning. -/
theorem c5_counterexample_silent_skip :
    parseColumnName ("badcol") = none ∧
    processAllData
      { barcodes := ["P3B3"], columns := [{ name := "badcol", counts := [5] }] } [] =
      ([], []) := by
  exact ⟨rfl, rfl⟩

/-- The printed output of one column of `process_all_data` is exactly
the expected warning of that column, when there is one. -/
theorem processColumn_prints (pmap : List (String × PlateEntry))
    (barcodes : List String) (c : Column) :
    (processColumn pmap barcodes c).2 = (columnWarning pmap c).toList := by
  rcases hp : parseColumnName c.name with _ | pw
  · simp [processColumn, columnWarning, hp]
  · rcases hl : lookupKey pmap (mkKey pw) with _ | md
    · simp [processColumn, columnWarning, hp, hl]
    · by_cases ht : md.type = "pair" <;> simp [processColumn, columnWarning, hp, hl, ht]

/-- Concatenating the singleton-or-empty print lists of a traversal is
the same as filtering out the absent ones. -/
theorem catLists_toList_eq_filterMap {α β : Type} (g : α → Option β) :
    ∀ l : List α, catLists (l.map (fun a => (g a).toList)) = l.filterMap g := by
  intro l
  induction l with
  | nil => rfl
  | cons a l ih =>
    rcases hg : g a with _ | b <;> simp [catLists, List.filterMap_cons, hg, ih]

/-- The fold of `plateStep` ignores exactly the rows whose condition
string matches no expected shape. -/
theorem foldl_plateStep_filter :
    ∀ (rows : List PlateRow) (acc : List (String × PlateEntry)),
      rows.foldl plateStep acc =
        (rows.filter (fun row => (parseConditionEntry row.condition).isSome)).foldl
          plateStep acc := by
  intro rows
  induction rows with
  | nil => intro acc; rfl
  | cons row rest ih =>
    intro acc
    rcases hp : parseConditionEntry row.condition with _ | e
    · simp only [List.foldl_cons, List.filter_cons, hp, Option.isSome_none, Bool.false_eq_true,
        if_false]
      rw [show plateStep acc row = acc by rw [plateStep, hp]]
      exact ih acc
    · simp only [List.foldl_cons, List.filter_cons, hp, Option.isSome_some, if_true]
      exact ih (plateStep acc row)

/-- C5 amended: in `process_all_data` the printed warnings are exactly
one per parsed column whose plate/well key is absent from the plate
map — an unparseable column or a non-pair entry is skipped silently —
and `_load_plate_map` silently ignores (prints nothing for, and stores
nothing for) every row whose condition string matches no expected
shape. -/
theorem c5_amended_skip_behavior :
    (∀ (t : BarcodeTable) (pmap : List (String × PlateEntry)),
      (processAllData t pmap).2 = specExpectedWarnings t pmap) ∧
    (∀ rows : List PlateRow,
      loadPlateMap rows =
        loadPlateMap (rows.filter (fun row => (parseConditionEntry row.condition).isSome))) := by
  constructor
  · intro t pmap
    show catLists (t.columns.map fun c => (processColumn pmap t.barcodes c).2) = _
    have h1 : (t.columns.map fun c => (processColumn pmap t.barcodes c).2) =
        t.columns.map fun c => (columnWarning pmap c).toList := by
      apply List.map_congr_left
      intro c _
      exact processColumn_prints pmap t.barcodes c
    rw [h1, catLists_toList_eq_filterMap]
    rfl
  · intro rows
    rw [loadPlateMap, loadPlateMap]
    exact foldl_plateStep_filter rows []

/-- The summed frequency of a strain in a group is nonnegative when all
row frequencies are. -/
theorem groupStrainSum_nonneg (rows : List GRow) (tp : Int) (rep : String) (b : String)
    (hnn : ∀ r ∈ rows, 0 ≤ r.frequency) : 0 ≤ groupStrainSum rows tp rep b := by
  rw [groupStrainSum]
  apply List.sum_nonneg
  intro x hx
  obtain ⟨r, hr, rfl⟩ := List.mem_map.mp hx
  exact hnn r (List.mem_filter.mp hr).1

/-- Normalization only rewrites the frequency of a grouped row. -/
theorem normalizeRow_fields (e1 e2 : String) (rows : List GRow) (r : GRow) :
    (normalizeRow e1 e2 rows r).timepoint = r.timepoint ∧
    (normalizeRow e1 e2 rows r).replicate = r.replicate ∧
    (normalizeRow e1 e2 rows r).barcode = r.barcode := by
  simp only [normalizeRow]
  split_ifs <;> simp

/-- Evaluation of the normalization of one row of a group whose
two-strain total is positive. -/
theorem normalizeRow_eval (e1 e2 : String) (rows : List GRow) (r0 : GRow)
    (tp : Int) (rep : String) (htp : r0.timepoint = tp) (hrep : r0.replicate = rep)
    (hpos : 0 < groupStrainSum rows tp rep e1 + groupStrainSum rows tp rep e2) :
    normalizeRow e1 e2 rows r0 =
      if r0.barcode = e2 then
        { r0 with frequency := groupStrainSum rows tp rep e2 /
            (groupStrainSum rows tp rep e1 + groupStrainSum rows tp rep e2) }
      else if r0.barcode = e1 then
        { r0 with frequency := groupStrainSum rows tp rep e1 /
            (groupStrainSum rows tp rep e1 + groupStrainSum rows tp rep e2) }
      else { r0 with frequency := 0 } := by
  simp only [normalizeRow]
  rw [htp, hrep, if_pos hpos]

/-- C1: for every (timepoint, replicate) group whose two expected
strain frequencies have a positive sum, the normalization of
`create_pair_plot` rewrites the first expected strain's frequency to
s1/(s1+s2), the second's to s2/(s1+s2), and every other barcode's
frequency to 0; the two rewritten frequencies sum to 1 and each lies
in the unit interval. -/
theorem c1_two_strain_normalization (e1 e2 : String) (rows : List GRow)
    (tp : Int) (rep : String)
    (hne : e1 ≠ e2)
    (hnn : ∀ r ∈ rows, 0 ≤ r.frequency)
    (hpos : 0 < groupStrainSum rows tp rep e1 + groupStrainSum rows tp rep e2) :
    (∀ r ∈ normalizeTwoStrain e1 e2 rows, r.timepoint = tp → r.replicate = rep →
      ((r.barcode = e1 → r.frequency = groupStrainSum rows tp rep e1 /
          (groupStrainSum rows tp rep e1 + groupStrainSum rows tp rep e2)) ∧
       (r.barcode = e2 → r.frequency = groupStrainSum rows tp rep e2 /
          (groupStrainSum rows tp rep e1 + groupStrainSum rows tp rep e2)) ∧
       (r.barcode ≠ e1 → r.barcode ≠ e2 → r.frequency = 0))) ∧
    groupStrainSum rows tp rep e1 /
        (groupStrainSum rows tp rep e1 + groupStrainSum rows tp rep e2) +
      groupStrainSum rows tp rep e2 /
        (groupStrainSum rows tp rep e1 + groupStrainSum rows tp rep e2) = 1 ∧
    0 ≤ groupStrainSum rows tp rep e1 /
        (groupStrainSum rows tp rep e1 + groupStrainSum rows tp rep e2) ∧
    groupStrainSum rows tp rep e1 /
        (groupStrainSum rows tp rep e1 + groupStrainSum rows tp rep e2) ≤ 1 ∧
    0 ≤ groupStrainSum rows tp rep e2 /
        (groupStrainSum rows tp rep e1 + groupStrainSum rows tp rep e2) ∧
    groupStrainSum rows tp rep e2 /
        (groupStrainSum rows tp rep e1 + groupStrainSum rows tp rep e2) ≤ 1 := by
  have hs1 : 0 ≤ groupStrainSum rows tp rep e1 := groupStrainSum_nonneg rows tp rep e1 hnn
  have hs2 : 0 ≤ groupStrainSum rows tp rep e2 := groupStrainSum_nonneg rows tp rep e2 hnn
  refine ⟨?_, ?_, ?_, ?_, ?_, ?_⟩
  · intro r hr htp hrep
    rw [normalizeTwoStrain] at hr
    obtain ⟨r0, hr0, rfl⟩ := List.mem_map.mp hr
    obtain ⟨htp0, hrep0, hbc0⟩ := normalizeRow_fields e1 e2 rows r0
    rw [htp0] at htp
    rw [hrep0] at hrep
    rw [normalizeRow_eval e1 e2 rows r0 tp rep htp hrep hpos]
    by_cases hb2 : r0.barcode = e2
    · rw [if_pos hb2]
      refine ⟨?_, ?_, ?_⟩
      · intro hb1
        simp only at hb1
        exact absurd (hb1 ▸ hb2) (by rw [hb1] at hb2; exact fun h => hne (h ▸ hb2.symm))
      · intro _
        rfl
      · intro _ hb2n
        simp only at hb2n
        exact absurd hb2 hb2n
    · rw [if_neg hb2]
      by_cases hb1 : r0.barcode = e1
      · rw [if_pos hb1]
        refine ⟨fun _ => rfl, ?_, ?_⟩
        · intro hb2a
          simp only at hb2a
          exact absurd hb2a hb2
        · intro hb1n _
          simp only at hb1n
          exact absurd hb1 hb1n
      · rw [if_neg hb1]
        refine ⟨?_, ?_, fun _ _ => rfl⟩
        · intro hb1a
          simp only at hb1a
          exact absurd hb1a hb1
        · intro hb2a
          simp only at hb2a
          exact absurd hb2a hb2
  · rw [div_add_div_same]
    exact div_self (ne_of_gt hpos)
  · exact div_nonneg hs1 (le_of_lt hpos)
  · exact (div_le_one hpos).mpr (le_add_of_nonneg_right hs2)
  · exact div_nonneg hs2 (le_of_lt hpos)
  · exact (div_le_one hpos).mpr (le_add_of_nonneg_left hs1)

/-- Witness grouped rows for the normalization theorem: one group with
both expected strains and a third barcode. -/
def c1rows : List GRow :=
  [{ timepoint := 1, replicate := "1", barcode := "P3B3", frequency := 3 },
   { timepoint := 1, replicate := "1", barcode := "P3H1", frequency := 1 },
   { timepoint := 1, replicate := "1", barcode := "XX", frequency := 7 }]

theorem c1_witness :
    (("P3B3" : String) ≠ "P3H1" ∧ (∀ r ∈ c1rows, 0 ≤ r.frequency) ∧
      0 < groupStrainSum c1rows 1 "1" "P3B3" + groupStrainSum c1rows 1 "1" "P3H1") ∧
    ((∀ r ∈ normalizeTwoStrain "P3B3" "P3H1" c1rows, r.timepoint = 1 → r.replicate = "1" →
      ((r.barcode = "P3B3" → r.frequency = groupStrainSum c1rows 1 "1" "P3B3" /
          (groupStrainSum c1rows 1 "1" "P3B3" + groupStrainSum c1rows 1 "1" "P3H1")) ∧
       (r.barcode = "P3H1" → r.frequency = groupStrainSum c1rows 1 "1" "P3H1" /
          (groupStrainSum c1rows 1 "1" "P3B3" + groupStrainSum c1rows 1 "1" "P3H1")) ∧
       (r.barcode ≠ "P3B3" → r.barcode ≠ "P3H1" → r.frequency = 0))) ∧
     groupStrainSum c1rows 1 "1" "P3B3" /
        (groupStrainSum c1rows 1 "1" "P3B3" + groupStrainSum c1rows 1 "1" "P3H1") +
      groupStrainSum c1rows 1 "1" "P3H1" /
        (groupStrainSum c1rows 1 "1" "P3B3" + groupStrainSum c1rows 1 "1" "P3H1") = 1 ∧
     0 ≤ groupStrainSum c1rows 1 "1" "P3B3" /
        (groupStrainSum c1rows 1 "1" "P3B3" + groupStrainSum c1rows 1 "1" "P3H1") ∧
     groupStrainSum c1rows 1 "1" "P3B3" /
        (groupStrainSum c1rows 1 "1" "P3B3" + groupStrainSum c1rows 1 "1" "P3H1") ≤ 1 ∧
     0 ≤ groupStrainSum c1rows 1 "1" "P3H1" /
        (groupStrainSum c1rows 1 "1" "P3B3" + groupStrainSum c1rows 1 "1" "P3H1") ∧
     groupStrainSum c1rows 1 "1" "P3H1" /
        (groupStrainSum c1rows 1 "1" "P3B3" + groupStrainSum c1rows 1 "1" "P3H1") ≤ 1) :=
  ⟨⟨by decide, by norm_num [c1rows], by simp [groupStrainSum, c1rows, List.filter_cons]; norm_num⟩,
   c1_two_strain_normalization "P3B3" "P3H1" c1rows 1 "1" (by decide)
     (by norm_num [c1rows]) (by simp [groupStrainSum, c1rows, List.filter_cons]; norm_num)⟩

/-- Membership in a concatenation of lists. -/
theorem mem_catLists {α : Type} {a : α} :
    ∀ {ls : List (List α)}, a ∈ catLists ls ↔ ∃ l ∈ ls, a ∈ l := by
  intro ls
  induction ls with
  | nil => simp [catLists]
  | cons l ls ih => simp [catLists, List.mem_append, ih]

/-- Every record of `process_all_data` is produced by some sample
column. -/
theorem mem_processAllData_records {t : BarcodeTable}
    {pmap : List (String × PlateEntry)} {r : Record}
    (h : r ∈ (processAllData t pmap).1) :
    ∃ c ∈ t.columns, r ∈ (processColumn pmap t.barcodes c).1 := by
  have h2 : r ∈ catLists (t.columns.map fun c => (processColumn pmap t.barcodes c).1) := h
  rw [mem_catLists] at h2
  obtain ⟨l, hl, hrl⟩ := h2
  obtain ⟨c, hc, rfl⟩ := List.mem_map.mp hl
  exact ⟨c, hc, hrl⟩

/-- Inversion of the record production of one sample column: the
column parses, its key is present with a pair-type entry, the
timepoint string parses as an integer, and the record is built from a
positive-count row of the table. -/
theorem mem_processColumn_records {pmap : List (String × PlateEntry)}
    {barcodes : List String} {c : Column} {r : Record}
    (h : r ∈ (processColumn pmap barcodes c).1) :
    ∃ pw, parseColumnName c.name = some pw ∧
    ∃ md, lookupKey pmap (mkKey pw) = some md ∧ md.type = "pair" ∧
    ∃ n, pyInt md.timepoint = some n ∧
    ∃ bc ∈ barcodes.zip c.counts, 0 < bc.2 ∧
      r = { barcode := bc.1, frequency := bc.2, pair := md.pair,
            condition := md.condition, timepoint := n, replicate := md.replicate } := by
  rw [processColumn] at h
  split at h
  · cases h
  · rename_i pw hp
    split at h
    · cases h
    · rename_i md hl
      split at h
      · rename_i ht
        simp only at h
        obtain ⟨bc, hbc, heq⟩ := List.mem_filterMap.mp h
        obtain ⟨hmem, hdec⟩ := List.mem_filter.mp hbc
        obtain ⟨n, hn, hfn⟩ := Option.map_eq_some'.mp heq
        exact ⟨pw, hp, md, hl, ht, n, hn, bc, hmem, of_decide_eq_true hdec, hfn.symm⟩
      · cases h

/-- C3: every record emitted by `process_all_data` has a strictly
positive frequency, and carries the barcode and count of a
positive-count row of a parsed sample column together with the pair,
condition, replicate and (integer-parsed) timepoint of the matching
plate-map entry. -/
theorem c3_positive_records (t : BarcodeTable) (pmap : List (String × PlateEntry))
    (r : Record) (hr : r ∈ (processAllData t pmap).1) :
    0 < r.frequency ∧
    ∃ c ∈ t.columns, ∃ pw, parseColumnName c.name = some pw ∧
      ∃ md, lookupKey pmap (mkKey pw) = some md ∧
        r.pair = md.pair ∧ r.condition = md.condition ∧ r.replicate = md.replicate ∧
        pyInt md.timepoint = some r.timepoint ∧
        ∃ bc ∈ t.barcodes.zip c.counts, 0 < bc.2 ∧ r.barcode = bc.1 ∧
          r.frequency = bc.2 := by
  obtain ⟨c, hc, hrc⟩ := mem_processAllData_records hr
  obtain ⟨pw, hpw, md, hmd, htype, n, hn, bc, hbc, hcount, hr0⟩ :=
    mem_processColumn_records hrc
  subst hr0
  exact ⟨hcount, c, hc, pw, hpw, md, hmd, rfl, rfl, rfl, hn, bc, hbc, hcount, rfl, rfl⟩

/-- Witness barcode table for the positive-record theorem: one parsed
column with one positive and one zero count. -/
def w3table : BarcodeTable :=
  { barcodes := ["P3B3", "P3H1"], columns := [{ name := "CoexP1_A1", counts := [2, 0] }] }

/-- Witness plate map for the positive-record theorem. -/
def w3pmap : List (String × PlateEntry) :=
  [("P1_A1",
    { type := "pair", pair := "1", condition := "NaCl", replicate := "1", timepoint := "3" })]

/-- The single record emitted from the witness table. -/
def w3rec : Record :=
  { barcode := "P3B3", frequency := 2, pair := "1", condition := "NaCl",
    timepoint := 3, replicate := "1" }

theorem c3_witness :
    (w3rec ∈ (processAllData w3table w3pmap).1) ∧
    (0 < w3rec.frequency ∧
     ∃ c ∈ w3table.columns, ∃ pw, parseColumnName c.name = some pw ∧
       ∃ md, lookupKey w3pmap (mkKey pw) = some md ∧
         w3rec.pair = md.pair ∧ w3rec.condition = md.condition ∧
         w3rec.replicate = md.replicate ∧
         pyInt md.timepoint = some w3rec.timepoint ∧
         ∃ bc ∈ w3table.barcodes.zip c.counts,
           0 < bc.2 ∧ w3rec.barcode = bc.1 ∧ w3rec.frequency = bc.2) := by
  have hmem : w3rec ∈ (processAllData w3table w3pmap).1 := by
    have : (processAllData w3table w3pmap).1 = [w3rec] := by rfl
    rw [this]
    exact List.mem_singleton.mpr rfl
  exact ⟨hmem, c3_positive_records w3table w3pmap w3rec hmem⟩

/-- C4 counterexample: for the matched filename with sample name A1x,
the script truncates the sample to its letter-digit prefix and pads
it, producing A01 — not the unchanged A1x that the claim requires for
a sample name that is not uppercase letters followed by digits. -/
theorem c4_counterexample_sample_truncated :
    computeNewName ("000000000-GRN6V_l01_n01_CoexP1_1__A1x.fastq.gz") =
      some ("CoexP1_A01_R1.fastq.gz") ∧
    ("CoexP1_A01_R1.fastq.gz" : String) ≠ "CoexP1_A1x_R1.fastq.gz" :=
  ⟨rfl, by decide⟩

/-- `takeWhile` passes over a block all of whose elements satisfy the
predicate. -/
theorem takeWhile_append_all {α : Type} (p : α → Bool) :
    ∀ (L rest : List α), (∀ c ∈ L, p c = true) →
      (L ++ rest).takeWhile p = L ++ rest.takeWhile p := by
  intro L
  induction L with
  | nil => intro rest _; rfl
  | cons a L ih =>
    intro rest hall
    rw [List.cons_append, List.takeWhile_cons, if_pos (hall a (List.mem_cons_self a L)),
      ih rest (fun c hc => hall c (List.mem_cons_of_mem a hc)), List.cons_append]

/-- `dropWhile` drops a block all of whose elements satisfy the
predicate. -/
theorem dropWhile_append_all {α : Type} (p : α → Bool) :
    ∀ (L rest : List α), (∀ c ∈ L, p c = true) →
      (L ++ rest).dropWhile p = rest.dropWhile p := by
  intro L
  induction L with
  | nil => intro rest _; rfl
  | cons a L ih =>
    intro rest hall
    rw [List.cons_append, List.dropWhile_cons, if_pos (hall a (List.mem_cons_self a L)),
      ih rest (fun c hc => hall c (List.mem_cons_of_mem a hc))]

/-- `takeWhile` takes nothing when the head fails the predicate. -/
theorem takeWhile_nil_of_head {α : Type} (p : α → Bool) (l : List α)
    (h : ∀ c, l.head? = some c → p c = false) : l.takeWhile p = [] := by
  cases l with
  | nil => rfl
  | cons a l =>
    have ha := h a rfl
    simp [List.takeWhile_cons, ha]

/-- `dropWhile` drops nothing when the head fails the predicate. -/
theorem dropWhile_self_of_head {α : Type} (p : α → Bool) (l : List α)
    (h : ∀ c, l.head? = some c → p c = false) : l.dropWhile p = l := by
  cases l with
  | nil => rfl
  | cons a l =>
    have ha := h a rfl
    simp [List.dropWhile_cons, ha]

/-- Every element taken by `takeWhile` satisfies the predicate. -/
theorem mem_takeWhile_pred {α : Type} (p : α → Bool) :
    ∀ (l : List α) (a : α), a ∈ l.takeWhile p → p a = true := by
  intro l
  induction l with
  | nil => intro a ha; cases ha
  | cons b l ih =>
    intro a ha
    rw [List.takeWhile_cons] at ha
    by_cases hb : p b = true
    · rw [if_pos hb] at ha
      rcases List.mem_cons.mp ha with rfl | ha2
      · exact hb
      · exact ih a ha2
    · rw [if_neg hb] at ha
      cases ha

/-- The head left by `dropWhile` fails the predicate. -/
theorem head_dropWhile_false {α : Type} (p : α → Bool) :
    ∀ (l : List α) (c : α), (l.dropWhile p).head? = some c → p c = false := by
  intro l
  induction l with
  | nil => intro c hc; cases hc
  | cons b l ih =>
    intro c hc
    rw [List.dropWhile_cons] at hc
    by_cases hb : p b = true
    · rw [if_pos hb] at hc
      exact ih c hc
    · rw [if_neg hb] at hc
      simp only [List.head?_cons, Option.some.injEq] at hc
      rw [← hc]
      rw [Bool.not_eq_true] at hb
      exact hb

/-- Modelled from the amended C4: the declarative decomposition of a
sample name into a nonempty uppercase-letter prefix, a maximal
nonempty digit run, and an arbitrary remainder that does not start
with a digit. -/
def padDecomp (sample : String) (L D R : List Char) : Prop :=
  sample.toList = L ++ D ++ R ∧ L ≠ [] ∧ D ≠ [] ∧
  (∀ c ∈ L, isUpperAZ c = true) ∧ (∀ c ∈ D, isDigit09 c = true) ∧
  (∀ c, R.head? = some c → isDigit09 c = false)

/-- The well-padding match succeeds on a decomposed sample name and
captures exactly the decomposition groups. -/
theorem upperDigitSplit_of_decomp (L D R : List Char)
    (hL : L ≠ []) (hD : D ≠ [])
    (hLu : ∀ c ∈ L, isUpperAZ c = true) (hDd : ∀ c ∈ D, isDigit09 c = true)
    (hR : ∀ c, R.head? = some c → isDigit09 c = false) :
    upperDigitSplit (L ++ D ++ R) = some (L, D) := by
  have hDu : ∀ c, (D ++ R).head? = some c → isUpperAZ c = false := by
    cases D with
    | nil => exact absurd rfl hD
    | cons d D2 =>
      intro c hc
      simp only [List.cons_append, List.head?_cons, Option.some.injEq] at hc
      rw [← hc]
      exact isDigit09_not_isUpperAZ (hDd d (List.mem_cons_self d D2))
  have h1 : (L ++ (D ++ R)).takeWhile isUpperAZ = L := by
    rw [takeWhile_append_all isUpperAZ L (D ++ R) hLu,
      takeWhile_nil_of_head isUpperAZ (D ++ R) hDu, List.append_nil]
  have h2 : (L ++ (D ++ R)).dropWhile isUpperAZ = D ++ R := by
    rw [dropWhile_append_all isUpperAZ L (D ++ R) hLu,
      dropWhile_self_of_head isUpperAZ (D ++ R) hDu]
  have h3 : (D ++ R).takeWhile isDigit09 = D := by
    rw [takeWhile_append_all isDigit09 D R hDd,
      takeWhile_nil_of_head isDigit09 R hR, List.append_nil]
  simp only [upperDigitSplit]
  rw [List.append_assoc, h1, h2, h3, if_neg hL, if_neg hD]

/-- A successful well-padding match yields a decomposition of the
sample name. -/
theorem upperDigitSplit_inv (cs ls ds : List Char)
    (h : upperDigitSplit cs = some (ls, ds)) :
    cs = ls ++ ds ++ (cs.dropWhile isUpperAZ).dropWhile isDigit09 ∧
    ls ≠ [] ∧ ds ≠ [] ∧
    (∀ c ∈ ls, isUpperAZ c = true) ∧ (∀ c ∈ ds, isDigit09 c = true) ∧
    (∀ c, ((cs.dropWhile isUpperAZ).dropWhile isDigit09).head? = some c →
      isDigit09 c = false) := by
  simp only [upperDigitSplit] at h
  split_ifs at h with h1 h2
  simp only [Option.some.injEq, Prod.mk.injEq] at h
  obtain ⟨hls, hds⟩ := h
  subst hls
  subst hds
  refine ⟨?_, h1, h2, ?_, ?_, ?_⟩
  · have e1 : cs.takeWhile isUpperAZ ++ cs.dropWhile isUpperAZ = cs :=
      List.takeWhile_append_dropWhile isUpperAZ cs
    have e2 : (cs.dropWhile isUpperAZ).takeWhile isDigit09 ++
        (cs.dropWhile isUpperAZ).dropWhile isDigit09 = cs.dropWhile isUpperAZ :=
      List.takeWhile_append_dropWhile isDigit09 (cs.dropWhile isUpperAZ)
    rw [List.append_assoc, e2, e1]
  · exact fun c hc => mem_takeWhile_pred isUpperAZ cs c hc
  · exact fun c hc => mem_takeWhile_pred isDigit09 (cs.dropWhile isUpperAZ) c hc
  · exact fun c hc => head_dropWhile_false isDigit09 (cs.dropWhile isUpperAZ) c hc

/-- The read component of a successful sample-fragment match is the
captured digit. -/
theorem matchSampleExt_read (r : Char) (proj rest4 : List Char) (rn : Char) (p s : String)
    (hm : matchSampleExt r proj rest4 = some (rn, p, s)) : rn = r := by
  rw [matchSampleExt] at hm
  split_ifs at hm
  simp only [Option.some.injEq, Prod.mk.injEq] at hm
  exact hm.1.symm

/-- The read component of a successful digit-fragment match is the
captured digit. -/
theorem matchDigitsPart_read (r : Char) (proj rest3 : List Char) (rn : Char) (p s : String)
    (hm : matchDigitsPart r proj rest3 = some (rn, p, s)) : rn = r := by
  rw [matchDigitsPart] at hm
  by_cases hd : rest3.takeWhile isDigit09 = []
  · rw [if_pos hd] at hm
    exact Option.noConfusion hm
  · rw [if_neg hd] at hm
    rcases h4 : dropLit (['_', '_']) (rest3.dropWhile isDigit09) with _ | rest4
    · rw [h4] at hm
      exact Option.noConfusion hm
    · rw [h4] at hm
      exact matchSampleExt_read r proj rest4 rn p s hm

/-- The read component of a successful project-fragment match is the
captured digit. -/
theorem matchProjPart_read (r : Char) (rest2 : List Char) (rn : Char) (p s : String)
    (hm : matchProjPart r rest2 = some (rn, p, s)) : rn = r := by
  rw [matchProjPart] at hm
  by_cases hp : rest2.takeWhile (fun c => c != '_') = []
  · rw [if_pos hp] at hm
    exact Option.noConfusion hm
  · rw [if_neg hp] at hm
    rcases h3 : dropLit (['_']) (rest2.dropWhile (fun c => c != '_')) with _ | rest3
    · rw [h3] at hm
      exact Option.noConfusion hm
    · rw [h3] at hm
      exact matchDigitsPart_read r (rest2.takeWhile (fun c => c != '_')) rest3 rn p s hm

/-- The read component of a successful tail match is the captured
digit. -/
theorem matchRenameTail_read (r : Char) (rest1 : List Char) (rn : Char) (p s : String)
    (hm : matchRenameTail r rest1 = some (rn, p, s)) : rn = r := by
  rw [matchRenameTail] at hm
  rcases h1 : dropLit (['_']) rest1 with _ | rest2
  · rw [h1] at hm
    exact Option.noConfusion hm
  · rw [h1] at hm
    exact matchProjPart_read r rest2 rn p s hm

/-- The read digit of a matched filename is 1 or 2. -/
theorem matchRenamePat_read (name : String) (rn : Char) (p s : String)
    (hm : matchRenamePat name = some (rn, p, s)) : rn = '1' ∨ rn = '2' := by
  rw [matchRenamePat] at hm
  rcases h1 : dropLit renameLitHead name.toList with _ | rest
  · rw [h1] at hm
    exact Option.noConfusion hm
  · rw [h1] at hm
    cases rest with
    | nil => exact Option.noConfusion hm
    | cons r rest1 =>
      replace hm : (if r = '1' ∨ r = '2' then matchRenameTail r rest1 else none) =
          some (rn, p, s) := hm
      by_cases hr : r = '1' ∨ r = '2'
      · rw [if_pos hr] at hm
        rw [matchRenameTail_read r rest1 rn p s hm]
        exact hr
      · rw [if_neg hr] at hm
        exact Option.noConfusion hm

/-- C4 amended: for every matched filename the computed new name is
project, sample and read number, where the read digit is 1 or 2; the
sample is replaced by its uppercase-letter prefix and zero-padded
digit run (dropping any remainder) when such a prefix decomposition
exists, and is kept unchanged when it does not; filenames not matching
the pattern get no new name. -/
theorem c4_rename_amended (name : String) (readNum : Char) (proj samp : String)
    (hm : matchRenamePat name = some (readNum, proj, samp)) :
    (readNum = '1' ∨ readNum = '2') ∧
    (∀ L D R, padDecomp samp L D R →
      computeNewName name = some (proj ++ "_" ++ (String.mk L ++ zfill2 (String.mk D)) ++
        "_R" ++ String.singleton readNum ++ ".fastq.gz")) ∧
    ((∀ L D R, ¬ padDecomp samp L D R) →
      computeNewName name = some (proj ++ "_" ++ samp ++ "_R" ++
        String.singleton readNum ++ ".fastq.gz")) ∧
    (∀ m : String, matchRenamePat m = none → computeNewName m = none) := by
  refine ⟨matchRenamePat_read name readNum proj samp hm, ?_, ?_, ?_⟩
  · intro L D R hdec
    obtain ⟨hsl, hL, hD, hLu, hDd, hR⟩ := hdec
    have hpad : padSample samp = String.mk L ++ zfill2 (String.mk D) := by
      rw [padSample, hsl, upperDigitSplit_of_decomp L D R hL hD hLu hDd hR]
    simp only [computeNewName, hm, hpad]
  · intro hnone
    have hpad : padSample samp = samp := by
      rcases hsplit : upperDigitSplit samp.toList with _ | ⟨ls, ds⟩
      · rw [padSample, hsplit]
      · obtain ⟨hdc, hls, hds, hlu, hdd, hhd⟩ := upperDigitSplit_inv samp.toList ls ds hsplit
        exact absurd ⟨hdc, hls, hds, hlu, hdd, hhd⟩
          (hnone ls ds ((samp.toList.dropWhile isUpperAZ).dropWhile isDigit09))
    simp only [computeNewName, hm, hpad]
  · intro m hm2
    simp only [computeNewName, hm2]

/-- The concrete matched filename used to witness the amended rename
claim. -/
def c4name : String := "000000000-GRN6V_l01_n01_CoexP1_1__A1.fastq.gz"

theorem c4_amended_witness :
    (matchRenamePat c4name = some ('1', "CoexP1", "A1")) ∧
    (('1' = '1' ∨ '1' = '2') ∧
     (∀ L D R, padDecomp "A1" L D R →
       computeNewName c4name = some ("CoexP1" ++ "_" ++
         (String.mk L ++ zfill2 (String.mk D)) ++ "_R" ++
         String.singleton '1' ++ ".fastq.gz")) ∧
     ((∀ L D R, ¬ padDecomp "A1" L D R) →
       computeNewName c4name = some ("CoexP1" ++ "_" ++ "A1" ++ "_R" ++
         String.singleton '1' ++ ".fastq.gz")) ∧
     (∀ m : String, matchRenamePat m = none → computeNewName m = none)) :=
  ⟨by rfl, c4_rename_amended c4name '1' "CoexP1" "A1" (by rfl)⟩
